import Mathlib

/-!
Verification of the sentinel-service authorization resolver
(`app/services/resolver.py`) and its data-access layer
(`app/dal/*.py`) against the repository's design specification.

Documents are modelled shallowly: Mongo documents become Lean structures
with `Option` fields where the Python code reads them via `.get(...)`,
collections become lists, and the stateless resolver becomes a pure
function of the store and the request.
-/

namespace Sentinel

/-- A user document (`UserDoc`, `models/user.py` / `dal/user_dal.py`).
Timestamps are abstracted to `Nat`. -/
structure UserDoc where
  issuer : String
  subject : String
  preferred_username : Option String
  email : Option String
  uname : Option String
  group_names : List String
  role_names : List String
  created_at : Nat
  updated_at : Nat
deriving DecidableEq, Repr

/-- A group document (`models/group.py` / `dal/group_dal.py`). -/
structure GroupDoc where
  gname : String
  role_names : List String
deriving DecidableEq, Repr

/-- A role document (`models/role.py`). -/
structure RoleDoc where
  rname : String
  permission_keys : List String
deriving DecidableEq, Repr

/-- A permission document (`models/permission.py` / `dal/permission_dal.py`).
`resource_type`, `action` and `app` are read by the resolver through
`doc.get(...)`, hence `Option`. -/
structure PermDoc where
  key : String
  resource_type : Option String
  action : Option String
  app : Option String
deriving DecidableEq, Repr

/-- A policy document (`models/policy.py` / `dal/policy_dal.py`).  The
resolver reads every field through `p.get(...)` on the raw document, so
`name`, `enabled` and `effect` are `Option`; `subjects` and `grant`
collapse to their lists (a missing sub-document reads as empty lists,
exactly like `p.get("subjects") or {}` followed by `.get(...) or []`). -/
structure PolicyDoc where
  pid : String
  pname : Option String
  enabled : Option Bool
  effect : Option String
  priority : Int
  target_platform : Option String
  target_workspace : Option String
  subj_user_refs : List (String × String)
  subj_group_names : List String
  grant_role_names : List String
deriving DecidableEq, Repr

/-- The backing store: the five entity collections. -/
structure Store where
  users : List UserDoc
  groups : List GroupDoc
  roles : List RoleDoc
  permissions : List PermDoc
  policies : List PolicyDoc
deriving DecidableEq, Repr

/-- `context.resource` (`schemas/resolve.py`, `ResolveResource`).  The
resolver reads `type` and `id` through `.get(...)`; `attrs` is never read. -/
structure ResolveResource where
  rtype : Option String
  rid : Option String
deriving DecidableEq, Repr

/-- `context` (`schemas/resolve.py`, `ResolveContext`). -/
structure ResolveContext where
  platform : Option String
  resource : Option ResolveResource
deriving DecidableEq, Repr

/-- A resolved permission grant (`schemas/resolve.py`, `PermissionGrant`). -/
structure Grant where
  key : String
  action : String
  resource_type : String
  app : Option String
  platform : Option String
  resource_id : Option String
deriving DecidableEq, Repr

/-- The resolver's return value (`Resolver.resolve`, lines 153-157). -/
structure ResolveOut where
  roles : List String
  permissions : List Grant
  policies_applied : List String
deriving DecidableEq, Repr

/-! ### String helpers used by the source

`key.split(".", 1)` splits on the first dot; the DAL's
`_derive_resource_action` additionally strips whitespace. -/

/-- Characters before the first `'.'` (reversed accumulator) and after it. -/
def splitDotAux : List Char → List Char → List Char × List Char
  | acc, [] => (acc.reverse, [])
  | acc, c :: rest => if c = '.' then (acc.reverse, rest) else splitDotAux (c :: acc) rest

/-- `"." in key` (Python membership test). -/
def hasDot (key : String) : Bool := key.data.contains '.'

/-- `key.split(".", 1)` as the pair (before first dot, after first dot). -/
def splitFirstDot (key : String) : String × String :=
  let p := splitDotAux [] key.data
  (String.mk p.1, String.mk p.2)

/-- Python `a or b` for an optional string `a`: `b` when `a` is `None` or
empty, else the string in `a`. -/
def pyOr (a : Option String) (b : String) : String :=
  match a with
  | some s => if s = "" then b else s
  | none => b

/-- Python `str.strip()`: drop leading and trailing whitespace. -/
def pyStrip (s : String) : String :=
  String.mk (((s.data.dropWhile Char.isWhitespace).reverse.dropWhile Char.isWhitespace).reverse)

/-- `_derive_resource_action` (`dal/permission_dal.py`, lines 17-28):
split on the first dot, strip each piece, with fallbacks
`resource_type="global"` / `action="use"` for blank pieces and
`("global", key)` when there is no dot. -/
def deriveResourceAction (key : String) : String × String :=
  if hasDot key = false then ("global", key)
  else
    let p := splitFirstDot key
    (if pyStrip p.1 = "" then "global" else pyStrip p.1,
     if pyStrip p.2 = "" then "use" else pyStrip p.2)

/-- Keys on which the resolver's inline fallback can agree with
`_derive_resource_action`: either no dot, or both pieces of the split on
the first dot are whitespace-free and non-empty (so that stripping and
the blank-piece fallbacks change nothing). -/
def keyWellFormed (k : String) : Prop :=
  hasDot k = false ∨
    (pyStrip (splitFirstDot k).1 = (splitFirstDot k).1 ∧ (splitFirstDot k).1 ≠ "" ∧
     pyStrip (splitFirstDot k).2 = (splitFirstDot k).2 ∧ (splitFirstDot k).2 ≠ "")

instance decKeyWellFormed (k : String) : Decidable (keyWellFormed k) := by
  unfold keyWellFormed
  exact inferInstance

/-! ### Sorted, deduplicated output

Python's `sorted(s)` on a `set` of strings returns the distinct elements
in ascending order; we realize it as insertion into a sorted
duplicate-free list, using lexicographic code-point comparison as Python
does. -/

/-- Lexicographic comparison of character lists by code point. -/
def charListLt : List Char → List Char → Bool
  | [], [] => false
  | [], _ :: _ => true
  | _ :: _, [] => false
  | a :: as, b :: bs =>
    if a.toNat < b.toNat then true
    else if a = b then charListLt as bs
    else false

/-- Python's `<` on strings: lexicographic by code point. -/
def strLt (a b : String) : Bool := charListLt a.data b.data

/-- Insert into an ascending duplicate-free list, dropping duplicates. -/
def insDedup (x : String) : List String → List String
  | [] => [x]
  | y :: ys => if strLt x y then x :: y :: ys else if x = y then y :: ys else y :: insDedup x ys

/-- `sorted(set(l))`: ascending duplicate-free listing of the elements. -/
def sortDedup (l : List String) : List String := l.foldr insDedup []

/-! ### Store lookups (DAL) -/

/-- `UserDAL.get_by_ref`: first document with the given `(issuer, subject)`. -/
def findUserDoc (users : List UserDoc) (issuer subject : String) : Option UserDoc :=
  users.find? (fun u => decide (u.issuer = issuer ∧ u.subject = subject))

/-- `GroupDAL.get_by_name`. -/
def getGroup (groups : List GroupDoc) (n : String) : Option GroupDoc :=
  groups.find? (fun g => decide (g.gname = n))

/-- Modelled from the spec: `role_dal.py` (class `RoleDAL`) is not in the
source tree, only its import and call sites are.  Section 4.1 of the
specification gives every entity a `getByUniqueKey` lookup, for Role keyed
on `name`; this is that lookup. -/
def getRole (roles : List RoleDoc) (n : String) : Option RoleDoc :=
  roles.find? (fun r => decide (r.rname = n))

/-- `PermissionDAL.get_many_by_keys` / `perm_docs.get(key)` collapsed to a
single-key lookup: the batch call only avoids round trips. -/
def lookupPerm (perms : List PermDoc) (key : String) : Option PermDoc :=
  perms.find? (fun d => decide (d.key = key))

/-- `PolicyDAL.find_applicable`'s Mongo query predicate
(`policy_dal.py`, lines 88-95): enabled, platform equal, workspace equal
or null. -/
def policyScopeMatch (pf wf : Option String) (p : PolicyDoc) : Bool :=
  decide (p.enabled = some true ∧ p.target_platform = pf ∧
    (p.target_workspace = wf ∨ p.target_workspace = none))

/-- Sort key comparison for `find_applicable`'s
`sort([("priority", ASC), ("name", ASC)])`; a null name sorts first, as in
Mongo. -/
def policyKeyLE (p q : PolicyDoc) : Bool :=
  if p.priority < q.priority then true
  else if p.priority = q.priority then
    match p.pname, q.pname with
    | none, _ => true
    | some _, none => false
    | some a, some b => !(strLt b a)
  else false

/-- Insertion step of the `(priority, name)` sort. -/
def insertPolicy (p : PolicyDoc) : List PolicyDoc → List PolicyDoc
  | [] => [p]
  | q :: qs => if policyKeyLE p q then p :: q :: qs else q :: insertPolicy p qs

/-- Ascending `(priority, name)` ordering of a policy list. -/
def sortPolicies : List PolicyDoc → List PolicyDoc
  | [] => []
  | p :: ps => insertPolicy p (sortPolicies ps)

/-- `PolicyDAL.find_applicable` (`policy_dal.py`, lines 76-101): the
enabled policies matching the scope, in `(priority, name)` order. -/
def findApplicable (policies : List PolicyDoc) (pf wf : Option String) : List PolicyDoc :=
  sortPolicies (policies.filter (policyScopeMatch pf wf))

/-! ### Context normalization (`resolver.py`, lines 40-60) -/

/-- Scope normalization: `platform_eff` prefers a truthy
`context.platform`; `workspace_eff` prefers `context.resource.id` when the
resource type is the (truthy) string `"workspace"` and the id is truthy. -/
def normalizeScope (context : Option ResolveContext) (platform workspace_id : Option String) :
    Option String × Option String :=
  let ctxPlatform := context.bind ResolveContext.platform
  let ctxResource := context.bind ResolveContext.resource
  let platformEff : Option String :=
    match ctxPlatform with
    | some s => if s = "" then platform else some s
    | none => platform
  let rt : Option String × Option String :=
    match ctxResource with
    | some r =>
      match r.rtype with
      | some t => if t = "" then (none, none) else (some t, r.rid)
      | none => (none, none)
    | none => (none, none)
  let workspaceEff : Option String :=
    match rt.1, rt.2 with
    | some t, some i => if t = "workspace" ∧ i ≠ "" then some i else workspace_id
    | _, _ => workspace_id
  (platformEff, workspaceEff)

/-! ### Policy aggregation (`resolver.py`, lines 81-114) -/

/-- Accumulator of the policy loop: applied names, allow set, deny set. -/
structure PolicyAgg where
  applied : List String
  allowR : List String
  denyR : List String
deriving DecidableEq, Repr

/-- `p.get("name") or p.get("_id", "policy")`. -/
def nameOrId (p : PolicyDoc) : String :=
  match p.pname with
  | some s => if s = "" then p.pid else s
  | none => p.pid

/-- One iteration of the policy loop (`resolver.py`, lines 90-114):
skip disabled policies, skip subject mismatches, skip empty grants, then
record the name and aggregate by effect. -/
def stepPolicy (issuer subject : String) (userGroups : List String)
    (acc : PolicyAgg) (p : PolicyDoc) : PolicyAgg :=
  if p.enabled.getD true = false then acc
  else if ¬ ((∃ r ∈ p.subj_user_refs, r.1 = issuer ∧ r.2 = subject) ∨
             (∃ g ∈ userGroups, g ∈ p.subj_group_names)) then acc
  else if p.grant_role_names = [] then acc
  else
    { applied := acc.applied ++ [nameOrId p]
      allowR := if p.effect = some "deny" then acc.allowR else acc.allowR ++ p.grant_role_names
      denyR := if p.effect = some "deny" then acc.denyR ++ p.grant_role_names else acc.denyR }

/-- The whole policy phase: fetch applicable policies and fold the loop. -/
def resolveAgg (policies : List PolicyDoc) (issuer subject : String)
    (userGroups : List String) (pf wf : Option String) : PolicyAgg :=
  (findApplicable policies pf wf).foldl (stepPolicy issuer subject userGroups) ⟨[], [], []⟩

/-! ### Group and role expansion (`resolver.py`, lines 72-76 and 124-128) -/

/-- `group_roles`: union of `role_names` over the user's groups; a missing
group contributes nothing. -/
def groupRolesOf (groups : List GroupDoc) (gs : List String) : List String :=
  gs.foldl (fun acc g =>
    match getGroup groups g with
    | some gd => acc ++ gd.role_names
    | none => acc) []

/-- `permission_keys`: union of `permission_keys` over the final roles; a
missing role contributes nothing. -/
def permKeysOf (roles : List RoleDoc) (rs : List String) : List String :=
  rs.foldl (fun acc r =>
    match getRole roles r with
    | some rd => acc ++ rd.permission_keys
    | none => acc) []

/-! ### Permission binding (`resolver.py`, lines 136-151) -/

/-- Build one permission grant for `key`: stored fields win when truthy,
otherwise split-derived fallbacks; `resource_id` is bound to the effective
workspace exactly when the computed resource type is `"workspace"`. -/
def bindGrant (perms : List PermDoc) (pf wf : Option String) (key : String) : Grant :=
  let doc := lookupPerm perms key
  let rtDoc := pyOr (doc.bind PermDoc.resource_type)
    (if hasDot key then (splitFirstDot key).1 else "global")
  { key := key
    action := pyOr (doc.bind PermDoc.action)
      (if hasDot key then (splitFirstDot key).2 else key)
    resource_type := rtDoc
    app := doc.bind PermDoc.app
    platform := pf
    resource_id := if rtDoc = "workspace" then wf else none }

/-- `(user or {}).get("group_names") or []`. -/
def userGroupsOf (users : List UserDoc) (issuer subject : String) : List String :=
  ((findUserDoc users issuer subject).map UserDoc.group_names).getD []

/-- `(user or {}).get("role_names") or []`. -/
def userRolesOf (users : List UserDoc) (issuer subject : String) : List String :=
  ((findUserDoc users issuer subject).map UserDoc.role_names).getD []

/-- `Resolver.resolve` (`resolver.py`, lines 24-157). -/
def resolve (s : Store) (issuer subject : String)
    (platform workspace_id : Option String) (context : Option ResolveContext) : ResolveOut :=
  let scope := normalizeScope context platform workspace_id
  let userGroups := userGroupsOf s.users issuer subject
  let userRolesDirect := userRolesOf s.users issuer subject
  let groupRoles := groupRolesOf s.groups userGroups
  let agg := resolveAgg s.policies issuer subject userGroups scope.1 scope.2
  let rolesFinal :=
    (userRolesDirect ++ groupRoles ++ agg.allowR).filter (fun r => decide (r ∉ agg.denyR))
  let permKeys := permKeysOf s.roles rolesFinal
  { roles := sortDedup rolesFinal
    permissions := (sortDedup permKeys).map (bindGrant s.permissions scope.1 scope.2)
    policies_applied := agg.applied }

/-- `UserDAL.upsert_identity` (`user_dal.py`, lines 23-57) on the users
collection: update the hint fields of the first `(issuer, subject)` match,
or insert a fresh document with empty memberships. -/
def upsertIdentity (users : List UserDoc) (issuer subject : String)
    (pu em nm : Option String) (now : Nat) : List UserDoc :=
  match users with
  | [] => [⟨issuer, subject, pu, em, nm, [], [], now, now⟩]
  | u :: us =>
    if u.issuer = issuer ∧ u.subject = subject then
      { u with preferred_username := pu, email := em, uname := nm, updated_at := now } :: us
    else
      u :: upsertIdentity us issuer subject pu em nm now

/-- The three run-time conditions under which the policy loop records a
policy: enabled (default true), subject match, non-empty grant. -/
def contributes (issuer subject : String) (ug : List String) (p : PolicyDoc) : Prop :=
  p.enabled.getD true = true ∧
  ((∃ r ∈ p.subj_user_refs, r.1 = issuer ∧ r.2 = subject) ∨
   (∃ g ∈ ug, g ∈ p.subj_group_names)) ∧
  p.grant_role_names ≠ []

instance decContributes (issuer subject : String) (ug : List String) (p : PolicyDoc) :
    Decidable (contributes issuer subject ug p) := by
  unfold contributes
  exact inferInstance

/-! ### Concrete stores used to exhibit behaviours -/

/-- An enabled platform-wide policy matching user `(kc, u1)` whose grant
is the empty role list. -/
def polEmptyGrant : PolicyDoc :=
  ⟨"pid-3", some "p31", some true, some "allow", 1, some "astra", none, [("kc", "u1")], [], []⟩

/-- Store holding only `polEmptyGrant`. -/
def storeEmptyGrant : Store := ⟨[], [], [], [], [polEmptyGrant]⟩

/-- A low-priority allow policy granting role `R` to `(kc, u1)` on
platform `astra`. -/
def polAllowR : PolicyDoc :=
  ⟨"pid-a", some "allowP", some true, some "allow", 1, some "astra", none, [("kc", "u1")], [], ["R"]⟩

/-- A high-priority deny policy revoking role `R` from `(kc, u1)` on
platform `astra`. -/
def polDenyR : PolicyDoc :=
  ⟨"pid-d", some "denyP", some true, some "deny", 100, some "astra", none, [("kc", "u1")], [], ["R"]⟩

/-- Store where `(kc, u1)` holds `R` directly and via an allow policy,
while a deny policy revokes it. -/
def storeDeny : Store :=
  ⟨[⟨"kc", "u1", none, none, none, [], ["R"], 0, 0⟩], [], [], [], [polAllowR, polDenyR]⟩

/-- Store for the end-to-end scenario of the specification's section 8. -/
def storeE2E : Store :=
  ⟨[⟨"kc", "u1", none, none, none, ["grp:persona:architect"], [], 0, 0⟩],
   [⟨"grp:persona:architect", ["role:raina:workspace:owner"]⟩],
   [⟨"role:raina:workspace:owner", ["raina.workspace.read", "raina.workspace.write"]⟩],
   [⟨"raina.workspace.read", some "workspace", some "read", none⟩,
    ⟨"raina.workspace.write", some "workspace", some "write", none⟩],
   [⟨"pid-1", some "other-platform-policy", some true, some "allow", 10,
     some "raina", none, [("kc", "u1")], [], ["role:other"]⟩]⟩

/-- Store where a role references the pathological unregistered
permission key `".bar"`. -/
def storeDotBar : Store :=
  ⟨[⟨"kc", "u1", none, none, none, [], ["r1"], 0, 0⟩], [], [⟨"r1", [".bar"]⟩], [], []⟩

/-- Store where a role references the unregistered key `"foo.bar"` and a
registered workspace permission, for scope-binding witnesses. -/
def storeFooBar : Store :=
  ⟨[⟨"kc", "u1", none, none, none, [], ["r1"], 0, 0⟩], [],
   [⟨"r1", ["foo.bar", "raina.workspace.read", "run.start"]⟩],
   [⟨"raina.workspace.read", some "workspace", some "read", none⟩,
    ⟨"run.start", some "run", some "start", none⟩], []⟩

/-- Store whose user references a group and a role that do not exist. -/
def storeDangling : Store :=
  ⟨[⟨"kc", "u1", none, none, none, ["ghost-group"], ["ghost-role"], 0, 0⟩], [], [], [], []⟩

/-- The grant the resolver builds for the unregistered key `"foo.bar"`
under platform `astra`. -/
def fooBarGrant : Grant := ⟨"foo.bar", "bar", "foo", none, some "astra", none⟩

/-- An existing user record with memberships, for the upsert frame
witness. -/
def userAlice : UserDoc := ⟨"kc", "u1", some "old", none, none, ["g1"], ["r1"], 5, 6⟩

/-! ### Basic membership lemmas -/

theorem mem_insDedup (a x : String) (l : List String) :
    a ∈ insDedup x l ↔ a = x ∨ a ∈ l := by
  induction l with
  | nil => simp [insDedup]
  | cons y ys ih =>
    unfold insDedup
    split
    · simp [List.mem_cons]
      try tauto
    · split
      · rename_i hlt heq
        subst heq
        simp [List.mem_cons]
        try tauto
      · simp [List.mem_cons, ih]
        try tauto

theorem mem_sortDedup (a : String) (l : List String) :
    a ∈ sortDedup l ↔ a ∈ l := by
  induction l with
  | nil => simp [sortDedup]
  | cons x xs ih =>
    unfold sortDedup at ih ⊢
    rw [List.foldr_cons, mem_insDedup, ih, List.mem_cons]

theorem mem_insertPolicy (a p : PolicyDoc) (l : List PolicyDoc) :
    a ∈ insertPolicy p l ↔ a = p ∨ a ∈ l := by
  induction l with
  | nil => simp [insertPolicy]
  | cons q qs ih =>
    unfold insertPolicy
    split
    · simp [List.mem_cons]
    · simp [List.mem_cons, ih]
      try tauto

theorem mem_sortPolicies (a : PolicyDoc) (l : List PolicyDoc) :
    a ∈ sortPolicies l ↔ a ∈ l := by
  induction l with
  | nil => simp [sortPolicies]
  | cons p ps ih =>
    unfold sortPolicies
    rw [mem_insertPolicy, ih, List.mem_cons]

theorem mem_findApplicable (policies : List PolicyDoc) (pf wf : Option String) (p : PolicyDoc) :
    p ∈ findApplicable policies pf wf ↔
      p ∈ policies ∧ p.enabled = some true ∧ p.target_platform = pf ∧
        (p.target_workspace = wf ∨ p.target_workspace = none) := by
  unfold findApplicable
  rw [mem_sortPolicies, List.mem_filter]
  unfold policyScopeMatch
  simp only [decide_eq_true_eq]
  try tauto

/-! ### Characterizing one step of the policy loop -/

theorem stepPolicy_skip (issuer subject : String) (ug : List String) (acc : PolicyAgg)
    (p : PolicyDoc) (h : ¬ contributes issuer subject ug p) :
    stepPolicy issuer subject ug acc p = acc := by
  unfold stepPolicy
  split
  · rfl
  · split
    · rfl
    · split
      · rfl
      · rename_i h1 h2 h3
        refine absurd ⟨?_, not_not.mp h2, h3⟩ h
        revert h1
        cases p.enabled.getD true <;> simp

theorem stepPolicy_contrib (issuer subject : String) (ug : List String) (acc : PolicyAgg)
    (p : PolicyDoc) (h : contributes issuer subject ug p) :
    stepPolicy issuer subject ug acc p =
      { applied := acc.applied ++ [nameOrId p]
        allowR := if p.effect = some "deny" then acc.allowR else acc.allowR ++ p.grant_role_names
        denyR := if p.effect = some "deny" then acc.denyR ++ p.grant_role_names else acc.denyR } := by
  obtain ⟨h1, h2, h3⟩ := h
  unfold stepPolicy
  rw [if_neg (by simp [h1]), if_neg (not_not_intro h2), if_neg h3]

/-! ### The policy fold: applied names, allow set, deny set -/

theorem foldl_applied (issuer subject : String) (ug : List String)
    (ps : List PolicyDoc) (acc : PolicyAgg) :
    (ps.foldl (stepPolicy issuer subject ug) acc).applied =
      acc.applied ++
        (ps.filter (fun p => decide (contributes issuer subject ug p))).map nameOrId := by
  induction ps generalizing acc with
  | nil => simp
  | cons p ps ih =>
    rw [List.foldl_cons]
    by_cases hc : contributes issuer subject ug p
    · rw [stepPolicy_contrib _ _ _ _ _ hc, ih, List.filter_cons]
      simp [hc]
    · rw [stepPolicy_skip _ _ _ _ _ hc, ih, List.filter_cons]
      simp [hc]

theorem mem_foldl_allowR (issuer subject : String) (ug : List String) (r : String)
    (ps : List PolicyDoc) (acc : PolicyAgg) :
    r ∈ (ps.foldl (stepPolicy issuer subject ug) acc).allowR ↔
      r ∈ acc.allowR ∨ ∃ p ∈ ps, contributes issuer subject ug p ∧
        ¬ p.effect = some "deny" ∧ r ∈ p.grant_role_names := by
  induction ps generalizing acc with
  | nil => simp
  | cons p ps ih =>
    rw [List.foldl_cons]
    by_cases hc : contributes issuer subject ug p
    · rw [stepPolicy_contrib _ _ _ _ _ hc, ih]
      by_cases he : p.effect = some "deny"
      · simp only [he, if_pos rfl]
        simp [hc, he]
        try tauto
      · simp only [if_neg he]
        simp [hc, he, List.mem_append]
        try tauto
    · rw [stepPolicy_skip _ _ _ _ _ hc, ih]
      simp [hc]
      try tauto

theorem mem_foldl_denyR (issuer subject : String) (ug : List String) (r : String)
    (ps : List PolicyDoc) (acc : PolicyAgg) :
    r ∈ (ps.foldl (stepPolicy issuer subject ug) acc).denyR ↔
      r ∈ acc.denyR ∨ ∃ p ∈ ps, contributes issuer subject ug p ∧
        p.effect = some "deny" ∧ r ∈ p.grant_role_names := by
  induction ps generalizing acc with
  | nil => simp
  | cons p ps ih =>
    rw [List.foldl_cons]
    by_cases hc : contributes issuer subject ug p
    · rw [stepPolicy_contrib _ _ _ _ _ hc, ih]
      by_cases he : p.effect = some "deny"
      · simp only [he, if_pos rfl]
        simp [hc, he, List.mem_append]
        try tauto
      · simp only [if_neg he]
        simp [hc, he]
        try tauto
    · rw [stepPolicy_skip _ _ _ _ _ hc, ih]
      simp [hc]
      try tauto

theorem mem_permKeys_foldl (roles : List RoleDoc) (rs : List String)
    (acc : List String) (k : String) :
    k ∈ rs.foldl (fun acc r =>
        match getRole roles r with
        | some rd => acc ++ rd.permission_keys
        | none => acc) acc ↔
      k ∈ acc ∨ ∃ r ∈ rs, ∃ rd, getRole roles r = some rd ∧ k ∈ rd.permission_keys := by
  induction rs generalizing acc with
  | nil => simp
  | cons r rs ih =>
    rw [List.foldl_cons]
    cases hg : getRole roles r with
    | none =>
      simp only [hg]
      rw [ih]
      simp [hg]
      try tauto
    | some rd =>
      simp only [hg]
      rw [ih]
      simp [hg, List.mem_append]
      try tauto

theorem mem_permKeysOf (roles : List RoleDoc) (rs : List String) (k : String) :
    k ∈ permKeysOf roles rs ↔
      ∃ r ∈ rs, ∃ rd, getRole roles r = some rd ∧ k ∈ rd.permission_keys := by
  unfold permKeysOf
  rw [mem_permKeys_foldl]
  simp

theorem bindGrant_unregistered (perms : List PermDoc) (pf wf : Option String) (k : String)
    (h : lookupPerm perms k = none) :
    (bindGrant perms pf wf k).key = k ∧
    (bindGrant perms pf wf k).resource_type =
      (if hasDot k then (splitFirstDot k).1 else "global") ∧
    (bindGrant perms pf wf k).action = (if hasDot k then (splitFirstDot k).2 else k) := by
  unfold bindGrant
  rw [h]
  exact ⟨rfl, rfl, rfl⟩

/-! ### Claim C1: deny dominance -/

/-- C1: for every store state and resolve input, if any enabled policy
matching the effective scope and the caller's subject has effect `deny`
and grants role `R`, then `R` is absent from the returned roles list,
regardless of what other sources grant `R`. -/
theorem deny_dominance (s : Store) (issuer subject : String)
    (platform workspace_id : Option String) (context : Option ResolveContext)
    (p : PolicyDoc) (R : String)
    (hp : p ∈ s.policies) (hen : p.enabled = some true)
    (hplat : p.target_platform = (normalizeScope context platform workspace_id).1)
    (hws : p.target_workspace = (normalizeScope context platform workspace_id).2 ∨
           p.target_workspace = none)
    (hsubj : (∃ r ∈ p.subj_user_refs, r.1 = issuer ∧ r.2 = subject) ∨
             (∃ g ∈ userGroupsOf s.users issuer subject, g ∈ p.subj_group_names))
    (heff : p.effect = some "deny") (hR : R ∈ p.grant_role_names) :
    R ∉ (resolve s issuer subject platform workspace_id context).roles := by
  intro hmem
  have hdeny : R ∈ (resolveAgg s.policies issuer subject (userGroupsOf s.users issuer subject)
      (normalizeScope context platform workspace_id).1
      (normalizeScope context platform workspace_id).2).denyR := by
    unfold resolveAgg
    rw [mem_foldl_denyR]
    right
    refine ⟨p, (mem_findApplicable _ _ _ _).mpr ⟨hp, hen, hplat, hws⟩, ?_, heff, hR⟩
    unfold contributes
    exact ⟨by simp [hen], hsubj, fun h0 => by simp [h0] at hR⟩
  simp only [resolve] at hmem
  rw [mem_sortDedup, List.mem_filter] at hmem
  have h2 := hmem.2
  simp only [decide_eq_true_eq] at h2
  exact h2 hdeny

/-- C1 witness: in `storeDeny`, the deny policy wins over both the direct
grant and the allow policy, so `R` is not resolved. -/
theorem deny_dominance_witness :
    "R" ∉ (resolve storeDeny "kc" "u1" (some "astra") none none).roles :=
  deny_dominance storeDeny "kc" "u1" (some "astra") none none polDenyR "R"
    (by decide) (by decide) (by decide) (by decide) (by decide) (by decide) (by decide)

/-! ### Claim C2: the policy matching condition -/

/-- C2: a role `r` is contributed to the allow/deny aggregation exactly
when some stored policy is enabled, targets the effective platform,
targets the effective workspace or is platform-wide, matches the caller
literally by `(issuer, subject)` or through a group intersection, and
grants `r`.  Workspace matching is plain equality (no wildcard/prefix). -/
theorem policy_matching_condition (s : Store) (issuer subject : String)
    (pf wf : Option String) (r : String) :
    (r ∈ (resolveAgg s.policies issuer subject (userGroupsOf s.users issuer subject) pf wf).allowR ∨
     r ∈ (resolveAgg s.policies issuer subject (userGroupsOf s.users issuer subject) pf wf).denyR) ↔
      ∃ p ∈ s.policies, p.enabled = some true ∧ p.target_platform = pf ∧
        (p.target_workspace = wf ∨ p.target_workspace = none) ∧
        ((∃ ref ∈ p.subj_user_refs, ref.1 = issuer ∧ ref.2 = subject) ∨
         (∃ g ∈ userGroupsOf s.users issuer subject, g ∈ p.subj_group_names)) ∧
        r ∈ p.grant_role_names := by
  unfold resolveAgg
  rw [mem_foldl_allowR, mem_foldl_denyR]
  constructor
  · rintro (h | h) <;>
    · rcases h with h | ⟨p, hp, hcon, heff, hr⟩
      · simp at h
      · have hcon2 := hcon
        unfold contributes at hcon2
        obtain ⟨hen0, hsub, hne⟩ := hcon2
        rw [mem_findApplicable] at hp
        exact ⟨p, hp.1, hp.2.1, hp.2.2.1, hp.2.2.2, hsub, hr⟩
  · rintro ⟨p, hp, hen, hplat, hws, hsub, hr⟩
    have hfa : p ∈ findApplicable s.policies pf wf :=
      (mem_findApplicable _ _ _ _).mpr ⟨hp, hen, hplat, hws⟩
    have hc : contributes issuer subject (userGroupsOf s.users issuer subject) p := by
      unfold contributes
      exact ⟨by simp [hen], hsub, fun h0 => by simp [h0] at hr⟩
    by_cases he : p.effect = some "deny"
    · right
      right
      exact ⟨p, hfa, hc, he, hr⟩
    · left
      right
      exact ⟨p, hfa, hc, he, hr⟩

/-! ### Claim C3: policies_applied -/

/-- C3 counterexample: `polEmptyGrant` is enabled, is discovered by the
matcher for scope `(astra, none)`, and matches caller `(kc, u1)` by user
ref, yet `policies_applied` comes back empty because the policy grants no
roles — so `policies_applied` is not the list of all matched enabled
policies. -/
theorem policies_applied_counterexample :
    (findApplicable storeEmptyGrant.policies (some "astra") none).map nameOrId = ["p31"] ∧
    polEmptyGrant.enabled = some true ∧
    (∃ ref ∈ polEmptyGrant.subj_user_refs, ref.1 = "kc" ∧ ref.2 = "u1") ∧
    (resolve storeEmptyGrant "kc" "u1" (some "astra") none none).policies_applied = [] := by
  decide

/-- C3 amended: `policies_applied` lists, in matcher discovery order, the
display names (`name`, or `_id` when the name is missing or empty) of the
enabled policies that matched scope and subject AND grant at least one
role; matched policies with an empty `grant.role_names` are omitted. -/
theorem policies_applied_characterization (s : Store) (issuer subject : String)
    (platform workspace_id : Option String) (context : Option ResolveContext) :
    (resolve s issuer subject platform workspace_id context).policies_applied =
      ((findApplicable s.policies (normalizeScope context platform workspace_id).1
          (normalizeScope context platform workspace_id).2).filter
        (fun p => decide (contributes issuer subject (userGroupsOf s.users issuer subject) p))).map
        nameOrId := by
  simp only [resolve, resolveAgg]
  rw [foldl_applied]
  simp

/-! ### Claim C10: implicit effect classification -/

/-- C10: in the policy loop, any discovered policy that matches the
subject and grants roles feeds the allow set unless its effect is the
literal string `"deny"` (an absent effect or any other string counts as
allow), and the deny set receives roles only from policies whose effect is
literally `"deny"`. -/
theorem effect_classification (pols : List PolicyDoc) (issuer subject : String)
    (ug : List String) (pf wf : Option String) (p : PolicyDoc) (r : String) :
    (p ∈ findApplicable pols pf wf →
      ((∃ ref ∈ p.subj_user_refs, ref.1 = issuer ∧ ref.2 = subject) ∨
       (∃ g ∈ ug, g ∈ p.subj_group_names)) →
      p.effect ≠ some "deny" → r ∈ p.grant_role_names →
      r ∈ (resolveAgg pols issuer subject ug pf wf).allowR) ∧
    (r ∈ (resolveAgg pols issuer subject ug pf wf).denyR →
      ∃ q ∈ findApplicable pols pf wf, q.effect = some "deny" ∧ r ∈ q.grant_role_names) := by
  constructor
  · intro hfa hsub heff hr
    unfold resolveAgg
    rw [mem_foldl_allowR]
    right
    refine ⟨p, hfa, ?_, heff, hr⟩
    have hen : p.enabled = some true := ((mem_findApplicable _ _ _ _).mp hfa).2.1
    unfold contributes
    exact ⟨by simp [hen], hsub, fun h0 => by simp [h0] at hr⟩
  · intro hd
    unfold resolveAgg at hd
    rw [mem_foldl_denyR] at hd
    rcases hd with hd | ⟨q, hq, _, heff, hr⟩
    · simp at hd
    · exact ⟨q, hq, heff, hr⟩

/-- C10 witness: with the allow and deny policies of `storeDeny`, role
`R` lands in the allow set via the non-deny policy, and every deny-set
entry traces back to a policy whose effect is literally `deny`. -/
theorem effect_classification_witness :
    "R" ∈ (resolveAgg storeDeny.policies "kc" "u1" [] (some "astra") none).allowR ∧
    (∃ q ∈ findApplicable storeDeny.policies (some "astra") none,
      q.effect = some "deny" ∧ "R" ∈ q.grant_role_names) :=
  ⟨(effect_classification storeDeny.policies "kc" "u1" [] (some "astra") none polAllowR "R").1
      (by decide) (by decide) (by decide) (by decide),
   (effect_classification storeDeny.policies "kc" "u1" [] (some "astra") none polAllowR "R").2
      (by decide)⟩

/-! ### Claim C4: context normalization -/

/-- C4 counterexample: `context.platform` and `context.resource.id` can
be present yet empty, in which case the normalizer falls back to the flat
request fields instead of using them, contradicting "whenever present". -/
theorem context_normalization_counterexample :
    (normalizeScope (some ⟨some "", none⟩) (some "p0") (some "w0")).1 = some "p0" ∧
    (some "p0" : Option String) ≠ some "" ∧
    (normalizeScope (some ⟨none, some ⟨some "workspace", some ""⟩⟩) (some "p0") (some "w0")).2 =
      some "w0" ∧
    (some "w0" : Option String) ≠ some "" := by
  decide

/-- C4 amended: the effective platform equals `context.platform` whenever
that is present and non-empty, else the request `platform`; the effective
workspace equals `context.resource.id` whenever `context.resource.type`
is `"workspace"` and the id is present and non-empty, else the request
`workspace_id`; normalization is a pure function of the request fields. -/
theorem context_normalization (context : Option ResolveContext)
    (platform workspace_id : Option String) :
    ((∀ s0, context.bind ResolveContext.platform = some s0 → s0 ≠ "" →
        (normalizeScope context platform workspace_id).1 = some s0) ∧
     (context.bind ResolveContext.platform = none ∨
      context.bind ResolveContext.platform = some "" →
        (normalizeScope context platform workspace_id).1 = platform)) ∧
    ((∀ i, (context.bind ResolveContext.resource).bind ResolveResource.rtype = some "workspace" →
        (context.bind ResolveContext.resource).bind ResolveResource.rid = some i → i ≠ "" →
        (normalizeScope context platform workspace_id).2 = some i) ∧
     ((¬ ∃ i, (context.bind ResolveContext.resource).bind ResolveResource.rtype = some "workspace" ∧
          (context.bind ResolveContext.resource).bind ResolveResource.rid = some i ∧ i ≠ "") →
        (normalizeScope context platform workspace_id).2 = workspace_id)) := by
  refine ⟨⟨?_, ?_⟩, ?_, ?_⟩
  · intro s0 hs hne
    rcases context with _ | ⟨cp, cr⟩
    · simp at hs
    · simp at hs
      subst hs
      simp [normalizeScope, hne]
  · intro h
    rcases context with _ | ⟨cp, cr⟩
    · simp [normalizeScope]
    · simp at h
      rcases h with h | h <;> subst h <;> simp [normalizeScope]
  · intro i ht hi hne
    rcases context with _ | ⟨cp, cr⟩
    · simp at ht
    · rcases cr with _ | ⟨rt0, ri0⟩
      · simp at ht
      · simp at ht hi
        subst ht
        subst hi
        simp [normalizeScope, hne]
  · intro h
    rcases context with _ | ⟨cp, cr⟩
    · simp [normalizeScope]
    · rcases cr with _ | ⟨rt0, ri0⟩
      · simp [normalizeScope]
      · rcases rt0 with _ | t
        · simp [normalizeScope]
        · rcases ri0 with _ | i
          · by_cases ht0 : t = "" <;> simp [normalizeScope, ht0]
          · push_neg at h
            have hi0 := h i
            simp at hi0
            by_cases ht0 : t = ""
            · simp [normalizeScope, ht0]
            · by_cases htw : t = "workspace"
              · subst htw
                have : i = "" := hi0 rfl
                subst this
                simp [normalizeScope]
              · simp [normalizeScope, ht0, htw]

/-- C4 witness: the amended normalization rules evaluated on a concrete
request with a non-empty context platform and workspace resource. -/
theorem context_normalization_witness :
    (normalizeScope (some ⟨some "astra", some ⟨some "workspace", some "ws-7"⟩⟩)
        (some "p0") (some "w0")).1 = some "astra" ∧
    (normalizeScope (some ⟨some "astra", some ⟨some "workspace", some "ws-7"⟩⟩)
        (some "p0") (some "w0")).2 = some "ws-7" ∧
    (normalizeScope none (some "p0") (some "w0")).1 = some "p0" ∧
    (normalizeScope none (some "p0") (some "w0")).2 = some "w0" :=
  ⟨(context_normalization (some ⟨some "astra", some ⟨some "workspace", some "ws-7"⟩⟩)
      (some "p0") (some "w0")).1.1 "astra" (by decide) (by decide),
   (context_normalization (some ⟨some "astra", some ⟨some "workspace", some "ws-7"⟩⟩)
      (some "p0") (some "w0")).2.1 "ws-7" (by decide) (by decide) (by decide),
   (context_normalization none (some "p0") (some "w0")).1.2 (by decide),
   (context_normalization none (some "p0") (some "w0")).2.2 (by simp)⟩

/-! ### Claim C5: unregistered permission keys -/

/-- C5 counterexample: for the unregistered key `".bar"` the stored-doc
fallback in the resolver yields `resource_type = ""`, while
`_derive_resource_action` yields `"global"`; the two derivations are not
the same function. -/
theorem unregistered_key_counterexample :
    deriveResourceAction ".bar" = ("global", "bar") ∧
    lookupPerm storeDotBar.permissions ".bar" = none ∧
    (resolve storeDotBar "kc" "u1" (some "astra") none none).permissions.map
      Grant.resource_type = [""] ∧
    ("" : String) ≠ "global" := by
  decide

/-- C5 amended: a grant for a key with no stored Permission document gets
`resource_type`/`action` by splitting the key on the first dot (with
`("global", key)` when there is no dot) but without the whitespace
stripping and blank-piece fallbacks of `_derive_resource_action`; the two
derivations coincide on well-formed keys such as `"foo.bar"`, and no key
is ever dropped from the output. -/
theorem unregistered_key_derivation (s : Store) (issuer subject : String)
    (platform workspace_id : Option String) (context : Option ResolveContext) :
    (∀ g ∈ (resolve s issuer subject platform workspace_id context).permissions,
      lookupPerm s.permissions g.key = none →
        (hasDot g.key = true →
          g.resource_type = (splitFirstDot g.key).1 ∧ g.action = (splitFirstDot g.key).2) ∧
        (hasDot g.key = false → g.resource_type = "global" ∧ g.action = g.key) ∧
        (keyWellFormed g.key → (g.resource_type, g.action) = deriveResourceAction g.key)) ∧
    (∀ R ∈ (resolve s issuer subject platform workspace_id context).roles,
      ∀ rd, getRole s.roles R = some rd → ∀ k ∈ rd.permission_keys,
        ∃ g ∈ (resolve s issuer subject platform workspace_id context).permissions,
          g.key = k) := by
  constructor
  · intro g hg hlk
    simp only [resolve] at hg
    rw [List.mem_map] at hg
    obtain ⟨k, hk, hgk⟩ := hg
    subst hgk
    have hkeq : (bindGrant s.permissions (normalizeScope context platform workspace_id).1
        (normalizeScope context platform workspace_id).2 k).key = k := rfl
    rw [hkeq] at hlk ⊢
    obtain ⟨hKey, hRT, hAct⟩ := bindGrant_unregistered s.permissions
      (normalizeScope context platform workspace_id).1
      (normalizeScope context platform workspace_id).2 k hlk
    refine ⟨?_, ?_, ?_⟩
    · intro hd
      rw [hRT, hAct, if_pos hd, if_pos hd]
      exact ⟨rfl, rfl⟩
    · intro hd
      rw [hRT, hAct, if_neg (by simp [hd]), if_neg (by simp [hd])]
      exact ⟨rfl, rfl⟩
    · intro hwf
      unfold keyWellFormed at hwf
      cases hd : hasDot k with
      | false =>
        rw [hRT, hAct, if_neg (by simp [hd]), if_neg (by simp [hd])]
        unfold deriveResourceAction
        rw [if_pos hd]
      | true =>
        rcases hwf with hnd | ⟨ht1, hne1, ht2, hne2⟩
        · rw [hnd] at hd
          cases hd
        · rw [hRT, hAct, if_pos hd, if_pos hd]
          unfold deriveResourceAction
          rw [if_neg (by simp [hd])]
          simp [ht1, ht2, hne1, hne2]
  · intro R hR rd hrd k hkmem
    simp only [resolve] at hR ⊢
    rw [mem_sortDedup] at hR
    refine ⟨bindGrant s.permissions (normalizeScope context platform workspace_id).1
      (normalizeScope context platform workspace_id).2 k, ?_, rfl⟩
    rw [List.mem_map]
    refine ⟨k, ?_, rfl⟩
    rw [mem_sortDedup, mem_permKeysOf]
    exact ⟨R, hR, rd, hrd, hkmem⟩

/-- C5 witness: in `storeFooBar` the unregistered key `"foo.bar"` yields
the grant `(key "foo.bar", resource_type "foo", action "bar")`, agreeing
with `_derive_resource_action`, and the key appears in the output. -/
theorem unregistered_key_derivation_witness :
    (fooBarGrant.resource_type, fooBarGrant.action) = deriveResourceAction fooBarGrant.key ∧
    ∃ g ∈ (resolve storeFooBar "kc" "u1" (some "astra") (some "ws-1") none).permissions,
      g.key = "foo.bar" :=
  ⟨((unregistered_key_derivation storeFooBar "kc" "u1" (some "astra") (some "ws-1") none).1
      fooBarGrant (by decide) (by decide)).2.2 (by decide),
   (unregistered_key_derivation storeFooBar "kc" "u1" (some "astra") (some "ws-1") none).2
      "r1" (by decide) ⟨"r1", ["foo.bar", "raina.workspace.read", "run.start"]⟩ (by decide)
      "foo.bar" (by decide)⟩

/-! ### Claim C6: scope binding of grants -/

/-- C6: every grant in the resolve output carries the effective platform,
and its `resource_id` is the effective workspace exactly when the grant's
`resource_type` is `"workspace"`, and `none` for every other resource
type. -/
theorem scope_binding (s : Store) (issuer subject : String)
    (platform workspace_id : Option String) (context : Option ResolveContext) :
    ∀ g ∈ (resolve s issuer subject platform workspace_id context).permissions,
      g.platform = (normalizeScope context platform workspace_id).1 ∧
      g.resource_id = (if g.resource_type = "workspace"
        then (normalizeScope context platform workspace_id).2 else none) := by
  intro g hg
  simp only [resolve] at hg
  rw [List.mem_map] at hg
  obtain ⟨k, hk, hgk⟩ := hg
  subst hgk
  exact ⟨rfl, rfl⟩

/-- C6 witness: in `storeFooBar` with effective workspace `ws-1`, the
workspace-typed grant is bound to `ws-1` while the `run`-typed grant is
unscoped. -/
theorem scope_binding_witness :
    (⟨"raina.workspace.read", "read", "workspace", none, some "astra", some "ws-1"⟩ : Grant).platform
        = (normalizeScope none (some "astra") (some "ws-1")).1 ∧
    (⟨"raina.workspace.read", "read", "workspace", none, some "astra", some "ws-1"⟩ : Grant).resource_id
        = (if (⟨"raina.workspace.read", "read", "workspace", none, some "astra", some "ws-1"⟩ : Grant).resource_type = "workspace"
            then (normalizeScope none (some "astra") (some "ws-1")).2 else none) :=
  scope_binding storeFooBar "kc" "u1" (some "astra") (some "ws-1") none
    ⟨"raina.workspace.read", "read", "workspace", none, some "astra", some "ws-1"⟩ (by decide)

/-! ### Claim C7: reference-level absences never fail resolution -/

/-- C7: resolution degrades instead of failing on dangling references: a
missing user behaves exactly like a present user with empty memberships;
a missing group or role contributes nothing to the corresponding
expansion; and a key with no permission document still yields a grant. -/
theorem missing_references (s : Store) (issuer subject : String)
    (platform workspace_id : Option String) (context : Option ResolveContext) :
    (findUserDoc s.users issuer subject = none →
      resolve s issuer subject platform workspace_id context =
        resolve { s with users := s.users ++ [⟨issuer, subject, none, none, none, [], [], 0, 0⟩] }
          issuer subject platform workspace_id context) ∧
    (∀ gname gs1 gs2, getGroup s.groups gname = none →
      groupRolesOf s.groups (gs1 ++ gname :: gs2) = groupRolesOf s.groups (gs1 ++ gs2)) ∧
    (∀ rname rs1 rs2, getRole s.roles rname = none →
      permKeysOf s.roles (rs1 ++ rname :: rs2) = permKeysOf s.roles (rs1 ++ rs2)) ∧
    (∀ k, lookupPerm s.permissions k = none →
      (bindGrant s.permissions (normalizeScope context platform workspace_id).1
        (normalizeScope context platform workspace_id).2 k).key = k) := by
  refine ⟨?_, ?_, ?_, ?_⟩
  · intro h
    have happ : findUserDoc (s.users ++ [⟨issuer, subject, none, none, none, [], [], 0, 0⟩])
        issuer subject = some ⟨issuer, subject, none, none, none, [], [], 0, 0⟩ := by
      unfold findUserDoc at h ⊢
      rw [List.find?_append, h]
      simp
    simp only [resolve, userGroupsOf, userRolesOf, h, happ, Option.map_none',
      Option.map_some', Option.getD_none, Option.getD_some]
  · intro gname gs1 gs2 h
    unfold groupRolesOf
    rw [List.foldl_append, List.foldl_append, List.foldl_cons]
    simp [h]
  · intro rname rs1 rs2 h
    unfold permKeysOf
    rw [List.foldl_append, List.foldl_append, List.foldl_cons]
    simp [h]
  · intro k h
    rfl

/-- C7 witness: in `storeDangling`, a caller with no user record resolves
as an empty user, the dangling group and role contribute nothing, and an
unknown key still produces a grant keyed by it. -/
theorem missing_references_witness :
    (resolve storeDangling "kc" "u2" (some "astra") none none =
      resolve { storeDangling with
        users := storeDangling.users ++ [⟨"kc", "u2", none, none, none, [], [], 0, 0⟩] }
        "kc" "u2" (some "astra") none none) ∧
    groupRolesOf storeDangling.groups ([] ++ "ghost-group" :: []) =
      groupRolesOf storeDangling.groups ([] ++ []) ∧
    permKeysOf storeDangling.roles ([] ++ "ghost-role" :: []) =
      permKeysOf storeDangling.roles ([] ++ []) ∧
    (bindGrant storeDangling.permissions (normalizeScope none (some "astra") none).1
      (normalizeScope none (some "astra") none).2 "mystery.key").key = "mystery.key" :=
  ⟨(missing_references storeDangling "kc" "u2" (some "astra") none none).1 (by decide),
   (missing_references storeDangling "kc" "u2" (some "astra") none none).2.1
     "ghost-group" [] [] (by decide),
   (missing_references storeDangling "kc" "u2" (some "astra") none none).2.2.1
     "ghost-role" [] [] (by decide),
   (missing_references storeDangling "kc" "u2" (some "astra") none none).2.2.2
     "mystery.key" (by decide)⟩

/-! ### Claim C8: end-to-end scenario -/

/-- C8: end-to-end: user `(kc, u1)` in group `grp:persona:architect`,
which grants `role:raina:workspace:owner`, which lists two registered
workspace permissions; with context platform `astra` and workspace
resource `ws-7` and no matching policy, resolution returns exactly that
role, two grants bound to `astra`/`ws-7`, and no applied policies. -/
theorem end_to_end_scenario :
    resolve storeE2E "kc" "u1" none none
        (some ⟨some "astra", some ⟨some "workspace", some "ws-7"⟩⟩) =
      ⟨["role:raina:workspace:owner"],
       [⟨"raina.workspace.read", "read", "workspace", none, some "astra", some "ws-7"⟩,
        ⟨"raina.workspace.write", "write", "workspace", none, some "astra", some "ws-7"⟩],
       []⟩ := by
  decide

/-! ### Claim C9: frame property of upsertIdentity -/

/-- C9: when a user with the given `(issuer, subject)` exists,
`upsert_identity` rewrites only the identity hints and `updated_at`,
preserving `issuer`, `subject`, `group_names`, `role_names` and
`created_at`; when none exists it inserts a record with empty
memberships. -/
theorem upsert_identity_frame (users : List UserDoc) (issuer subject : String)
    (pu em nm : Option String) (now : Nat) (u : UserDoc) :
    (findUserDoc users issuer subject = some u →
      findUserDoc (upsertIdentity users issuer subject pu em nm now) issuer subject =
        some { u with preferred_username := pu, email := em, uname := nm, updated_at := now }) ∧
    (findUserDoc users issuer subject = none →
      findUserDoc (upsertIdentity users issuer subject pu em nm now) issuer subject =
        some ⟨issuer, subject, pu, em, nm, [], [], now, now⟩) := by
  induction users with
  | nil =>
    constructor
    · intro h
      simp [findUserDoc] at h
    · intro h
      simp [upsertIdentity, findUserDoc]
  | cons v vs ih =>
    constructor
    · intro h
      by_cases hv : v.issuer = issuer ∧ v.subject = subject
      · have hu : v = u := by
          unfold findUserDoc at h
          rw [List.find?_cons_of_pos _ (by simp [hv])] at h
          exact Option.some.inj h
        subst hu
        unfold upsertIdentity
        rw [if_pos hv]
        unfold findUserDoc
        rw [List.find?_cons_of_pos _ (by simp [hv])]
      · have hrest : findUserDoc vs issuer subject = some u := by
          unfold findUserDoc at h ⊢
          rwa [List.find?_cons_of_neg _ (by simp [hv])] at h
        unfold upsertIdentity
        rw [if_neg hv]
        unfold findUserDoc
        rw [List.find?_cons_of_neg _ (by simp [hv])]
        exact (ih.1 hrest)
    · intro h
      by_cases hv : v.issuer = issuer ∧ v.subject = subject
      · exfalso
        unfold findUserDoc at h
        rw [List.find?_cons_of_pos _ (by simp [hv])] at h
        cases h
      · have hrest : findUserDoc vs issuer subject = none := by
          unfold findUserDoc at h ⊢
          rwa [List.find?_cons_of_neg _ (by simp [hv])] at h
        unfold upsertIdentity
        rw [if_neg hv]
        unfold findUserDoc
        rw [List.find?_cons_of_neg _ (by simp [hv])]
        exact (ih.2 hrest)

/-- C9 witness: updating the hints of `userAlice` preserves her
memberships and `created_at`; upserting an unknown identity inserts a
member-less record. -/
theorem upsert_identity_frame_witness :
    findUserDoc (upsertIdentity [userAlice] "kc" "u1" (some "alice") (some "alice@x") none 9)
        "kc" "u1" =
      some { userAlice with preferred_username := some "alice", email := some "alice@x",
                            uname := none, updated_at := 9 } ∧
    findUserDoc (upsertIdentity [] "kc" "u1" (some "alice") none none 9) "kc" "u1" =
      some ⟨"kc", "u1", some "alice", none, none, [], [], 9, 9⟩ :=
  ⟨(upsert_identity_frame [userAlice] "kc" "u1" (some "alice") (some "alice@x") none 9
      userAlice).1 (by decide),
   (upsert_identity_frame [] "kc" "u1" (some "alice") none none 9 userAlice).2 (by decide)⟩

end Sentinel
